import Mathlib

/-!
Shallow embedding of the ParleyPy request/pagination engine
(src/ParleyPy/parliament.py).

The HTTP transport is modelled as a pure function from the full request
URL to a status code and a parsed JSON body.  The recursive pagination
methods carry a fuel parameter; exhausting the fuel yields the
distinguished outcome `Err.diverge`, standing for non-termination of the
unbounded Python recursion.  Every embedded operation returns, next to
its result, the ordered list of URLs it requested, so that request
counts are provable.
-/

set_option autoImplicit false

namespace ParleyPy

/-- Errors a ParleyPy operation can raise.  `httpError` models the
`requests.HTTPError` produced by `raise_for_status` (the status code is
carried), `keyError` a Python `KeyError` on a missing JSON field,
`valueError` a Python `ValueError`, and `diverge` marks fuel exhaustion
of the embedded recursion. -/
inductive Err where
  | httpError (status : Nat)
  | keyError (key : String)
  | valueError (msg : String)
  | diverge
deriving DecidableEq

instance {ε α : Type} [DecidableEq ε] [DecidableEq α] : DecidableEq (Except ε α) := fun x y =>
  match x, y with
  | .ok a, .ok b =>
    if h : a = b then isTrue (congrArg Except.ok h)
    else isFalse (fun hh => h (Except.ok.inj hh))
  | .ok _, .error _ => isFalse (fun hh => Except.noConfusion hh)
  | .error _, .ok _ => isFalse (fun hh => Except.noConfusion hh)
  | .error e, .error f =>
    if h : e = f then isTrue (congrArg Except.error h)
    else isFalse (fun hh => h (Except.error.inj hh))

/-- One entry of a response body's `links` array: a `{rel, href}` pair. -/
structure Link where
  rel : String
  href : String
deriving DecidableEq

/-- A parsed JSON response body, restricted to the parts the engine ever
reads: the `items` array and the `links` array (each `none` when the key
is absent from the JSON object), plus the remaining scalar top-level
fields (for example `SessionId` in the calendar sessions response). -/
structure Body (α : Type) where
  items : Option (List α) := none
  links : Option (List Link) := none
  fields : List (String × Nat) := []
deriving DecidableEq

/-- An HTTP response: status code plus parsed JSON body. -/
structure Http (β : Type) where
  status : Nat
  body : β
deriving DecidableEq

/-- The transport: what `requests.Session.get` followed by `.json()`
produces for each full request URL. -/
def Transport (β : Type) : Type := String → Http β

/-- `urllib.parse.urlencode`, restricted to URL-safe keys and values
(the only ones the engine ever encodes: identifiers and decimal
numbers), on which percent-encoding is the identity. -/
def urlencode (params : List (String × String)) : String :=
  String.intercalate "&" (params.map (fun p => p.1 ++ "=" ++ p.2))

/-- The endpoint building of `Parley.__fetch__`: append a `?`-query
string iff at least one keyword argument is present. -/
def buildUrl (endpoint : String) (kwargs : List (String × String)) : String :=
  if 0 < kwargs.length then endpoint ++ "?" ++ urlencode kwargs else endpoint

/-- `res.raise_for_status()` followed by `res.json()`: `requests`
raises exactly for status codes 400 through 599. -/
def raiseForStatus {β : Type} (r : Http β) : Except Err β :=
  if 400 ≤ r.status ∧ r.status < 600 then .error (.httpError r.status) else .ok r.body

/-- The `for link in response["links"]` scan in
`Parley.__paginated_fetch__`: the `href` of the first link whose `rel`
equals `"page.next"`, defaulting to the initial value `""`. -/
def nextHref : List Link → String
  | [] => ""
  | l :: rest => if l.rel = "page.next" then l.href else nextHref rest

/-- `Parley.__paginated_fetch__`.  Fetches `endpoint` with `kwargs`,
scans `response["links"]` (a `KeyError` if the field is absent), then —
only if `len(response["items"]) >= page_size_max` — recurses on the
`page.next` href (with no kwargs) and extends the first response's
`items` with the recursive result's `items`. -/
def paginated_fetch {α : Type} (tr : Transport (Body α)) (base : String) (page_size_max : Nat) :
    Nat → String → List (String × String) → Except Err (Body α) × List String
  | 0, _, _ => (.error .diverge, [])
  | fuel + 1, endpoint, kwargs =>
    let url := base ++ buildUrl endpoint kwargs
    match raiseForStatus (tr url) with
    | .error e => (.error e, [url])
    | .ok body =>
      match body.links with
      | none => (.error (.keyError "links"), [url])
      | some ls =>
        match body.items with
        | none => (.error (.keyError "items"), [url])
        | some items =>
          if items.length < page_size_max then (.ok body, [url])
          else
            match paginated_fetch tr base page_size_max fuel (nextHref ls) [] with
            | (.error e, t) => (.error e, url :: t)
            | (.ok rest, t) =>
              match rest.items with
              | none => (.error (.keyError "items"), url :: t)
              | some more => (.ok { body with items := some (items ++ more) }, url :: t)

/-- The URL that `Parley.__exhaustive_fetch__` requests for a given
skip value: `Skip` and `Take` come first in the keyword dictionary,
then the remaining kwargs, in order. -/
def windowUrl (base endpoint : String) (kwargs : List (String × String)) (take skip : Nat) : String :=
  base ++ buildUrl endpoint (("Skip", toString skip) :: ("Take", toString take) :: kwargs)

/-- The recursive core of `Parley.__exhaustive_fetch__`, with `Skip`
and `Take` already popped from the kwargs.  Fetches the current window;
if `len(response["items"]) >= take` it advances `skip` by `take`,
recurses, and extends the first response's `items`. -/
def exhaustive_fetch {α : Type} (tr : Transport (Body α)) (base : String) :
    Nat → String → Nat → Nat → List (String × String) → Except Err (Body α) × List String
  | 0, _, _, _, _ => (.error .diverge, [])
  | fuel + 1, endpoint, skip, take, kwargs =>
    let url := windowUrl base endpoint kwargs take skip
    match raiseForStatus (tr url) with
    | .error e => (.error e, [url])
    | .ok body =>
      match body.items with
      | none => (.error (.keyError "items"), [url])
      | some items =>
        if items.length < take then (.ok body, [url])
        else
          match exhaustive_fetch tr base fuel endpoint (skip + take) take kwargs with
          | (.error e, t) => (.error e, url :: t)
          | (.ok rest, t) =>
            match rest.items with
            | none => (.error (.keyError "items"), url :: t)
            | some more => (.ok { body with items := some (items ++ more) }, url :: t)

/-- The entry point of `Parley.__exhaustive_fetch__`: pop `Skip`
(default `0`) and `Take` (default the configured `page_size_max`) from
the keyword arguments, then run the window recursion. -/
def exhaustive_fetch_top {α : Type} (tr : Transport (Body α)) (base : String)
    (page_size_max fuel : Nat) (endpoint : String) (skipArg takeArg : Option Nat)
    (kwargs : List (String × String)) : Except Err (Body α) × List String :=
  exhaustive_fetch tr base fuel endpoint (skipArg.getD 0) (takeArg.getD page_size_max) kwargs

/-- Lookup in a Python dict modelled as an ordered association list. -/
def dlookup {κ ν : Type} [DecidableEq κ] (k : κ) : List (κ × ν) → Option ν
  | [] => none
  | p :: rest => if p.1 = k then some p.2 else dlookup k rest

/-- Python dict write `d[k] = v` (also `d.update({k: v})`): overwrite
in place when the key exists, otherwise append at the end. -/
def dictSet {κ ν : Type} [DecidableEq κ] (k : κ) (v : ν) : List (κ × ν) → List (κ × ν)
  | [] => [(k, v)]
  | p :: rest => if p.1 = k then (k, v) :: rest else p :: dictSet k v rest

/-- A JSON record (a Python dict) whose values, for the purposes of
this development, are integers (ids and foreign keys). -/
abbrev Record : Type := List (String × Nat)

/-- `Committees.ENDPOINT["base"]`. -/
def committeesBase : String := "https://committees-api.parliament.uk/api/"

/-- `Bills.ENDPOINT["base"]`. -/
def billsBase : String := "https://bills-api.parliament.uk/api/"

/-- `Calendar.ENDPOINT["base"]`. -/
def calendarBase : String := "https://whatson-api.parliament.uk/calendar/"

/-- `Divisions.COMMONS_ENDPOINT["base"]`. -/
def commonsBase : String := "https://commonsvotes-api.parliament.uk/data/"

/-- `Divisions.LORDS_ENDPOINT["base"]`. -/
def lordsBase : String := "https://lordsvotes-api.parliament.uk/data/"

/-- `Committees.get_committee_business` on a list of committee ids:
for each id, exhaustively fetch `CommitteeBusiness` with
`CommitteeId=id` (page size 30), tag every returned business record
with `committeeId`, and concatenate in parent order. -/
def get_committee_business (tr : Transport (Body Record)) (fuel : Nat) :
    List Nat → Except Err (List Record) × List String
  | [] => (.ok [], [])
  | cid :: rest =>
    match exhaustive_fetch_top tr committeesBase 30 fuel "CommitteeBusiness" none none
        [("CommitteeId", toString cid)] with
    | (.error e, t) => (.error e, t)
    | (.ok body, t) =>
      match body.items with
      | none => (.error (.keyError "items"), t)
      | some business =>
        match get_committee_business tr fuel rest with
        | (.error e, t₂) => (.error e, t ++ t₂)
        | (.ok more, t₂) =>
          (.ok (business.map (fun b => dictSet "committeeId" cid b) ++ more), t ++ t₂)

/-- The accumulation loop of `Committees.get_committee_members`: for
each id, exhaustively fetch `Committees/{id}/Members` (page size 30),
tag every member with `committeeId`, and concatenate. -/
def committee_members_loop (tr : Transport (Body Record)) (fuel : Nat) :
    List Nat → Except Err (List Record) × List String
  | [] => (.ok [], [])
  | cid :: rest =>
    match exhaustive_fetch_top tr committeesBase 30 fuel
        ("Committees/" ++ toString cid ++ "/Members") none none [] with
    | (.error e, t) => (.error e, t)
    | (.ok body, t) =>
      match body.items with
      | none => (.error (.keyError "items"), t)
      | some members =>
        match committee_members_loop tr fuel rest with
        | (.error e, t₂) => (.error e, t ++ t₂)
        | (.ok more, t₂) =>
          (.ok (members.map (fun m => dictSet "committeeId" cid m) ++ more), t ++ t₂)

/-- `Committees.get_committee_members`: runs the accumulation loop but
ends without a `return` statement, so on success the Python function
returns `None` and the accumulated list is discarded. -/
def get_committee_members (tr : Transport (Body Record)) (fuel : Nat) (ids : List Nat) :
    Except Err (Option (List Record)) × List String :=
  match committee_members_loop tr fuel ids with
  | (.error e, t) => (.error e, t)
  | (.ok _, t) => (.ok none, t)

/-- The dict comprehension inside `Calendar.__clean_types__` applied to
one record: all fields of `t` except `"Id"`, in order. -/
def strip_id (t : Record) : Record :=
  t.filter (fun p => p.1 != "Id")

/-- The dict comprehension of `Calendar.__clean_types__`: iterate the
record list in order, keying each record (minus `"Id"`) by its `"Id"`
value; a missing `"Id"` raises `KeyError`, a repeated one overwrites. -/
def clean_fold : List Record → List (Nat × Record) → Except Err (List (Nat × Record))
  | [], acc => .ok acc
  | t :: rest, acc =>
    match dlookup "Id" t with
    | none => .error (.keyError "Id")
    | some i => clean_fold rest (dictSet i (strip_id t) acc)

/-- `Calendar.__clean_types__`: fetch the endpoint (whose JSON body is
a plain list of records) and build the id-keyed map. -/
def clean_types (tr : Transport (List Record)) (endpoint : String) :
    Except Err (List (Nat × Record)) × List String :=
  let url := calendarBase ++ buildUrl endpoint []
  match raiseForStatus (tr url) with
  | .error e => (.error e, [url])
  | .ok raw_types => (clean_fold raw_types [], [url])

/-- `Calendar.get_session_id_for_date`: fetch
`sessions/forDate.json/{date}` and read the `SessionId` field of the
response. -/
def get_session_id_for_date (tr : Transport (Body Record)) (date : String) :
    Except Err Nat × List String :=
  let url := calendarBase ++ buildUrl ("sessions/forDate.json/" ++ date) []
  match raiseForStatus (tr url) with
  | .error e => (.error e, [url])
  | .ok body =>
    match dlookup "SessionId" body.fields with
    | none => (.error (.keyError "SessionId"), [url])
    | some sid => (.ok sid, [url])

/-- The per-bill detail loop of `Bills.get_bills`: for every bill
summary, read its `billId` and fetch `v1/Bills/{billId}` with no
kwargs, collecting the whole detail responses in order. -/
def bills_detail_loop (tr : Transport (Body Record)) :
    List Record → Except Err (List (Body Record)) × List String
  | [] => (.ok [], [])
  | s :: rest =>
    match dlookup "billId" s with
    | none => (.error (.keyError "billId"), [])
    | some bid =>
      let url := billsBase ++ ("v1/Bills" ++ "/" ++ toString bid)
      match raiseForStatus (tr url) with
      | .error e => (.error e, [url])
      | .ok bill =>
        match bills_detail_loop tr rest with
        | (.error e, t) => (.error e, url :: t)
        | (.ok bs, t) => (.ok (bill :: bs), url :: t)

/-- `Bills.get_bills` after the optional date-to-session resolution:
validate that a `Session` kwarg is present (raising `ValueError`
otherwise, before any bills request), then exhaustively fetch
`v1/Bills` (page size 999) and fetch each bill's detail.  `t₀` is the
trace of any requests already issued by the date resolution. -/
def get_bills_core (tr : Transport (Body Record)) (fuel : Nat)
    (kwargs : List (String × Nat)) (t₀ : List String) :
    Except Err (List (Body Record)) × List String :=
  if (dlookup "Session" kwargs).isNone then
    (.error (.valueError "Session or date must be provided"), t₀)
  else
    match exhaustive_fetch_top tr billsBase 999 fuel "v1/Bills" none none
        (kwargs.map (fun p => (p.1, toString p.2))) with
    | (.error e, t) => (.error e, t₀ ++ t)
    | (.ok body, t) =>
      match body.items with
      | none => (.error (.keyError "items"), t₀ ++ t)
      | some summaries =>
        match bills_detail_loop tr summaries with
        | (.error e, t₂) => (.error e, t₀ ++ t ++ t₂)
        | (.ok bills, t₂) => (.ok bills, t₀ ++ t ++ t₂)

/-- `Bills.get_bills`: when a date is supplied, resolve it to a session
id through the calendar API (one request) and store it under
`Session`; then run the core. -/
def get_bills (tr : Transport (Body Record)) (fuel : Nat) (date : Option String)
    (kwargs : List (String × Nat)) : Except Err (List (Body Record)) × List String :=
  match date with
  | some d =>
    match get_session_id_for_date tr d with
    | (.error e, t) => (.error e, t)
    | (.ok sid, t) => get_bills_core tr fuel (dictSet "Session" sid kwargs) t
  | none => get_bills_core tr fuel kwargs []

/-- Python `str.lower()` restricted to ASCII strings (every house
discriminator handled by the repository is ASCII): lower-case each
character. -/
def pyLower (s : String) : String :=
  ⟨s.data.map Char.toLower⟩

/-- `Divisions.__init__`: select the endpoint configuration by the
lower-cased house name, raising `ValueError` on anything other than
commons or lords.  The construction issues no HTTP request, hence the
empty trace. -/
def divisions_init (house : String) : Except Err String × List String :=
  if pyLower house = "commons" then (.ok commonsBase, [])
  else if pyLower house = "lords" then (.ok lordsBase, [])
  else (.error (.valueError "house must be Commons or Lords"), [])

/-- A mocked three-page link-paginated resource (page size 2): pages of
sizes 2, 2, 1, each full page carrying a `page.next` link. -/
def mockLink3 : Transport (Body Nat) := fun url =>
  if url = "B/e" then ⟨200, ⟨some [1, 2], some [⟨"page.next", "p2"⟩], []⟩⟩
  else if url = "B/p2" then ⟨200, ⟨some [3, 4], some [⟨"page.next", "p3"⟩], []⟩⟩
  else if url = "B/p3" then ⟨200, ⟨some [5], some [], []⟩⟩
  else ⟨404, ⟨none, none, []⟩⟩

/-- A mocked resource answering every URL with an empty page that has
both `items` and `links` present. -/
def mockConst : Transport (Body Nat) := fun _ => ⟨200, ⟨some [], some [], []⟩⟩

/-- `mockConst` over record items. -/
def mockConstR : Transport (Body Record) := fun _ => ⟨200, ⟨some [], some [], []⟩⟩

/-- A mocked resource whose responses lack the `links` field. -/
def mockNoLinks : Transport (Body Nat) := fun _ => ⟨200, ⟨some [], none, []⟩⟩

/-- A mocked resource whose first page is full (page size 1) but
carries no `page.next` link; the base URL itself serves a short page. -/
def c3Tr : Transport (Body Nat) := fun url =>
  if url = "B/e" then ⟨200, ⟨some [0], some [], []⟩⟩
  else ⟨200, ⟨some [], some [], []⟩⟩

/-- A mocked resource whose second page comes back with HTTP status 304
(a non-2xx status that `raise_for_status` does not raise on). -/
def c5CounterTr : Transport (Body Nat) := fun url =>
  if url = "B/e" then ⟨200, ⟨some [0], some [⟨"page.next", "p2"⟩], []⟩⟩
  else if url = "B/p2" then ⟨304, ⟨some [], some [], []⟩⟩
  else ⟨404, ⟨none, none, []⟩⟩

/-- A mocked resource whose second page comes back with HTTP 500. -/
def c5ErrTr : Transport (Body Nat) := fun url =>
  if url = "B/e" then ⟨200, ⟨some [0], some [⟨"page.next", "p2"⟩], []⟩⟩
  else if url = "B/p2" then ⟨500, ⟨none, none, []⟩⟩
  else ⟨404, ⟨none, none, []⟩⟩

/-- A mocked window-paginated resource with exactly 20 underlying items
served in windows of `Take=10`: windows at skip 0, 10, 20 hold 10, 10
and 0 items. -/
def mockWin : Transport (Body Nat) := fun url =>
  if url = "W/e?Skip=0&Take=10" then ⟨200, ⟨some [0, 1, 2, 3, 4, 5, 6, 7, 8, 9], none, []⟩⟩
  else if url = "W/e?Skip=10&Take=10" then
    ⟨200, ⟨some [10, 11, 12, 13, 14, 15, 16, 17, 18, 19], none, []⟩⟩
  else if url = "W/e?Skip=20&Take=10" then ⟨200, ⟨some [], none, []⟩⟩
  else ⟨404, ⟨none, none, []⟩⟩

/-- A mocked committee-business resource: committee 5 has one business
record, committee 6 has two (all empty records). -/
def mockBusiness : Transport (Body Record) := fun url =>
  if url = committeesBase ++ "CommitteeBusiness?Skip=0&Take=30&CommitteeId=5" then
    ⟨200, ⟨some [[]], none, []⟩⟩
  else if url = committeesBase ++ "CommitteeBusiness?Skip=0&Take=30&CommitteeId=6" then
    ⟨200, ⟨some [[], []], none, []⟩⟩
  else ⟨404, ⟨none, none, []⟩⟩

/-- A mocked calendar types endpoint serving three records with ids
1, 2, 2. -/
def mockTypes : Transport (List Record) := fun url =>
  if url = calendarBase ++ "types/list.json" then
    ⟨200, [[("Id", 1), ("a", 10)], [("Id", 2), ("b", 20)], [("Id", 2), ("c", 30)]]⟩
  else ⟨404, []⟩

/-- With no kwargs, `__fetch__` requests the endpoint unchanged. -/
theorem buildUrl_nil (e : String) : buildUrl e [] = e := rfl

/-- A 2xx status never triggers `raise_for_status`. -/
theorem raiseForStatus_200 {β : Type} (b : β) : raiseForStatus ⟨200, b⟩ = .ok b := rfl

/-- One step of `__paginated_fetch__` on a short, well-shaped page:
return it as-is after a single request. -/
theorem paginated_fetch_done {α : Type} (tr : Transport (Body α)) (base : String)
    (max fuel : Nat) (endpoint : String) (kwargs : List (String × String))
    (its : List α) (ls : List Link) (fs : List (String × Nat))
    (h : tr (base ++ buildUrl endpoint kwargs) = ⟨200, ⟨some its, some ls, fs⟩⟩)
    (hshort : its.length < max) :
    paginated_fetch tr base max (fuel + 1) endpoint kwargs =
      (.ok ⟨some its, some ls, fs⟩, [base ++ buildUrl endpoint kwargs]) := by
  simp only [paginated_fetch, h, raiseForStatus_200, if_pos hshort]

/-- One step of `__paginated_fetch__` on a full, well-shaped page:
request it, then recurse on the `page.next` href with no kwargs and
extend the items. -/
theorem paginated_fetch_full {α : Type} (tr : Transport (Body α)) (base : String)
    (max fuel : Nat) (endpoint : String) (kwargs : List (String × String))
    (its : List α) (ls : List Link) (fs : List (String × Nat))
    (h : tr (base ++ buildUrl endpoint kwargs) = ⟨200, ⟨some its, some ls, fs⟩⟩)
    (hfull : ¬ its.length < max) :
    paginated_fetch tr base max (fuel + 1) endpoint kwargs =
      (match paginated_fetch tr base max fuel (nextHref ls) [] with
        | (.error e, t) => (.error e, (base ++ buildUrl endpoint kwargs) :: t)
        | (.ok rest, t) =>
          match rest.items with
          | none => (.error (.keyError "items"), (base ++ buildUrl endpoint kwargs) :: t)
          | some more =>
            (.ok ⟨some (its ++ more), some ls, fs⟩, (base ++ buildUrl endpoint kwargs) :: t)) := by
  simp only [paginated_fetch, h, raiseForStatus_200, if_neg hfull]

/-- C1: for a link-paginated resource serving pages of item counts
[max, max, k] with k < max, each full page carrying a `page.next` link,
`__paginated_fetch__` returns the first page's body with `items` the
ordered concatenation of all three pages' items (of length 2*max + k)
and issues exactly 3 requests. -/
theorem spec_c1 {α : Type} (tr : Transport (Body α)) (base endpoint : String)
    (kwargs : List (String × String)) (max k fuel : Nat)
    (its1 its2 its3 : List α) (ls1 ls2 ls3 : List Link)
    (f1 f2 f3 : List (String × Nat)) (u1 u2 : String)
    (hfuel : 3 ≤ fuel)
    (hl1 : its1.length = max) (hl2 : its2.length = max) (hl3 : its3.length = k)
    (hk : k < max)
    (hn1 : nextHref ls1 = u1) (hn2 : nextHref ls2 = u2)
    (h0 : tr (base ++ buildUrl endpoint kwargs) = ⟨200, ⟨some its1, some ls1, f1⟩⟩)
    (h1 : tr (base ++ u1) = ⟨200, ⟨some its2, some ls2, f2⟩⟩)
    (h2 : tr (base ++ u2) = ⟨200, ⟨some its3, some ls3, f3⟩⟩) :
    paginated_fetch tr base max fuel endpoint kwargs =
      (.ok ⟨some (its1 ++ (its2 ++ its3)), some ls1, f1⟩,
        [base ++ buildUrl endpoint kwargs, base ++ u1, base ++ u2]) ∧
    (its1 ++ (its2 ++ its3)).length = 2 * max + k := by
  obtain ⟨f, rfl⟩ : ∃ f, fuel = f + 3 := ⟨fuel - 3, by omega⟩
  have hfull1 : ¬ its1.length < max := by omega
  have hfull2 : ¬ its2.length < max := by omega
  have hshort3 : its3.length < max := by omega
  have s3 := paginated_fetch_done tr base max f u2 [] its3 ls3 f3
    (by rw [buildUrl_nil]; exact h2) hshort3
  have s2 := paginated_fetch_full tr base max (f + 1) u1 [] its2 ls2 f2
    (by rw [buildUrl_nil]; exact h1) hfull2
  have s1 := paginated_fetch_full tr base max (f + 2) endpoint kwargs its1 ls1 f1 h0 hfull1
  rw [hn2] at s2
  rw [hn1] at s1
  rw [buildUrl_nil] at s2 s3
  refine ⟨?_, ?_⟩
  · rw [show f + 3 = (f + 2) + 1 from rfl, s1, show f + 2 = (f + 1) + 1 from rfl, s2, s3]
  · simp only [List.length_append, hl1, hl2, hl3]
    omega

/-- C1 instantiated on `mockLink3`: page size 2, pages of sizes 2, 2, 1,
5 = 2 + 2 + 1 items in order across 3 requests. -/
theorem spec_c1_witness :
    paginated_fetch mockLink3 "B/" 2 3 "e" [] =
      (.ok ⟨some [1, 2, 3, 4, 5], some [⟨"page.next", "p2"⟩], []⟩, ["B/e", "B/p2", "B/p3"]) ∧
    (([1, 2] : List Nat) ++ ([3, 4] ++ [5])).length = 2 * 2 + 1 := by
  exact spec_c1 mockLink3 "B/" "e" [] 2 1 3 [1, 2] [3, 4] [5]
    [⟨"page.next", "p2"⟩] [⟨"page.next", "p3"⟩] [] [] [] [] "p2" "p3"
    (by decide) rfl rfl rfl (by decide) (by decide) (by decide)
    (by decide) (by decide) (by decide)

/-- One step of `__exhaustive_fetch__` on a short page: return it
as-is after a single request. -/
theorem exhaustive_fetch_done {α : Type} (tr : Transport (Body α)) (base : String)
    (fuel : Nat) (endpoint : String) (skip take : Nat) (kwargs : List (String × String))
    (its : List α) (lnks : Option (List Link)) (fs : List (String × Nat))
    (h : tr (windowUrl base endpoint kwargs take skip) = ⟨200, ⟨some its, lnks, fs⟩⟩)
    (hshort : its.length < take) :
    exhaustive_fetch tr base (fuel + 1) endpoint skip take kwargs =
      (.ok ⟨some its, lnks, fs⟩, [windowUrl base endpoint kwargs take skip]) := by
  simp only [exhaustive_fetch, h, raiseForStatus_200, if_pos hshort]

/-- One step of `__exhaustive_fetch__` on a full page whose recursive
call succeeds: extend the items and prepend the window URL. -/
theorem exhaustive_fetch_full_ok {α : Type} (tr : Transport (Body α)) (base : String)
    (fuel : Nat) (endpoint : String) (skip take : Nat) (kwargs : List (String × String))
    (its more : List α) (lnks l₂ : Option (List Link)) (fs f₂ : List (String × Nat))
    (t : List String)
    (h : tr (windowUrl base endpoint kwargs take skip) = ⟨200, ⟨some its, lnks, fs⟩⟩)
    (hfull : ¬ its.length < take)
    (hrec : exhaustive_fetch tr base fuel endpoint (skip + take) take kwargs =
      (.ok ⟨some more, l₂, f₂⟩, t)) :
    exhaustive_fetch tr base (fuel + 1) endpoint skip take kwargs =
      (.ok ⟨some (its ++ more), lnks, fs⟩, windowUrl base endpoint kwargs take skip :: t) := by
  simp only [exhaustive_fetch, h, raiseForStatus_200, if_neg hfull, hrec]

/-- One step of `__exhaustive_fetch__` on a full page whose recursive
call fails: the error propagates, with the window URL prepended to the
trace. -/
theorem exhaustive_fetch_full_err {α : Type} (tr : Transport (Body α)) (base : String)
    (fuel : Nat) (endpoint : String) (skip take : Nat) (kwargs : List (String × String))
    (its : List α) (lnks : Option (List Link)) (fs : List (String × Nat))
    (e : Err) (t : List String)
    (h : tr (windowUrl base endpoint kwargs take skip) = ⟨200, ⟨some its, lnks, fs⟩⟩)
    (hfull : ¬ its.length < take)
    (hrec : exhaustive_fetch tr base fuel endpoint (skip + take) take kwargs = (.error e, t)) :
    exhaustive_fetch tr base (fuel + 1) endpoint skip take kwargs =
      (.error e, windowUrl base endpoint kwargs take skip :: t) := by
  simp only [exhaustive_fetch, h, raiseForStatus_200, if_neg hfull, hrec]

/-- The window recursion over a resource that serves exact skip/take
slices of a fixed item list whose length is an exact multiple of
`take`: it returns all remaining items and requests one window per
slice plus one trailing empty window. -/
theorem exhaustive_fetch_slices {α : Type} (tr : Transport (Body α)) (base endpoint : String)
    (kwargs : List (String × String)) (take : Nat) (allItems : List α)
    (lnks : Nat → Option (List Link)) (flds : Nat → List (String × Nat)) :
    ∀ (m s fuel : Nat),
      (∀ i, i ≤ m → tr (windowUrl base endpoint kwargs take (s + i * take)) =
        ⟨200, ⟨some ((allItems.drop (s + i * take)).take take),
          lnks (s + i * take), flds (s + i * take)⟩⟩) →
      0 < take → (allItems.drop s).length = m * take → m + 1 ≤ fuel →
      exhaustive_fetch tr base fuel endpoint s take kwargs =
        (.ok ⟨some (allItems.drop s), lnks s, flds s⟩,
          (List.range (m + 1)).map (fun i => windowUrl base endpoint kwargs take (s + i * take))) := by
  intro m
  induction m with
  | zero =>
    intro s fuel h htake hlen hfuel
    obtain ⟨f, rfl⟩ : ∃ f, fuel = f + 1 := ⟨fuel - 1, by omega⟩
    have hlen0 : (allItems.drop s).length = 0 := by omega
    have hnil : allItems.drop s = [] := List.eq_nil_of_length_eq_zero hlen0
    have h0 := h 0 (Nat.le_refl 0)
    simp only [Nat.zero_mul, Nat.add_zero] at h0
    rw [exhaustive_fetch_done tr base f endpoint s take kwargs _ _ _ h0
      (by rw [hnil]; simpa using htake)]
    simp [hnil, List.range_succ]
  | succ m ih =>
    intro s fuel h htake hlen hfuel
    obtain ⟨f, rfl⟩ : ∃ f, fuel = f + 1 := ⟨fuel - 1, by omega⟩
    have h0 := h 0 (Nat.zero_le _)
    simp only [Nat.zero_mul, Nat.add_zero] at h0
    have key : take ≤ (allItems.drop s).length := by
      rw [hlen, Nat.succ_mul]
      exact Nat.le_add_left take (m * take)
    have hfull : ¬ ((allItems.drop s).take take).length < take := by
      rw [List.length_take]
      omega
    have hlen' : (allItems.drop (s + take)).length = m * take := by
      have h1 : (allItems.drop (s + take)).length = (allItems.drop s).length - take := by
        rw [List.length_drop, List.length_drop]
        omega
      rw [h1, hlen, Nat.succ_mul]
      exact Nat.add_sub_cancel _ _
    have harg : ∀ i : Nat, s + (i + 1) * take = s + take + i * take := by
      intro i
      ring
    have hshift : ∀ i, i ≤ m →
        tr (windowUrl base endpoint kwargs take (s + take + i * take)) =
          ⟨200, ⟨some ((allItems.drop (s + take + i * take)).take take),
            lnks (s + take + i * take), flds (s + take + i * take)⟩⟩ := by
      intro i hi
      have hh := h (i + 1) (Nat.succ_le_succ hi)
      rwa [harg i] at hh
    have hrec := ih (s + take) f hshift htake hlen' (by omega)
    rw [exhaustive_fetch_full_ok tr base f endpoint s take kwargs _ _ _ _ _ _ _ h0 hfull hrec]
    have hitems : (allItems.drop s).take take ++ allItems.drop (s + take) = allItems.drop s := by
      have hdd : allItems.drop (s + take) = (allItems.drop s).drop take := by
        rw [List.drop_drop, Nat.add_comm]
      rw [hdd, List.take_append_drop]
    have htrace : windowUrl base endpoint kwargs take s ::
        (List.range (m + 1)).map (fun i => windowUrl base endpoint kwargs take (s + take + i * take)) =
        (List.range (m + 1 + 1)).map (fun i => windowUrl base endpoint kwargs take (s + i * take)) := by
      conv_rhs => rw [List.range_succ_eq_map, List.map_cons, List.map_map]
      congr 1
      · simp
      · refine List.map_congr_left (fun i _ => ?_)
        show windowUrl base endpoint kwargs take (s + take + i * take) =
          windowUrl base endpoint kwargs take (s + (i + 1) * take)
        rw [harg i]
    rw [hitems, htrace]

/-- C2: window pagination over a resource whose true result count is an
exact multiple m*take of the take parameter issues m+1 requests — the
last one returning the empty window — and returns all m*take items; in
particular, for take = 10 and a true count of 20, 3 requests are issued
and 20 items returned. -/
theorem spec_c2 {α : Type} (tr : Transport (Body α)) (base endpoint : String)
    (kwargs : List (String × String)) (take m fuel : Nat) (allItems : List α)
    (lnks : Nat → Option (List Link)) (flds : Nat → List (String × Nat))
    (h : ∀ i, i ≤ m → tr (windowUrl base endpoint kwargs take (i * take)) =
      ⟨200, ⟨some ((allItems.drop (i * take)).take take), lnks (i * take), flds (i * take)⟩⟩)
    (htake : 0 < take) (hlen : allItems.length = m * take) (hfuel : m + 1 ≤ fuel) :
    exhaustive_fetch tr base fuel endpoint 0 take kwargs =
      (.ok ⟨some allItems, lnks 0, flds 0⟩,
        (List.range (m + 1)).map (fun i => windowUrl base endpoint kwargs take (i * take))) ∧
    (exhaustive_fetch tr base fuel endpoint 0 take kwargs).2.length = m + 1 := by
  have main := exhaustive_fetch_slices tr base endpoint kwargs take allItems lnks flds m 0 fuel
    (by intro i hi; simpa using h i hi) htake (by simpa using hlen) hfuel
  simp only [List.drop_zero, Nat.zero_add] at main
  refine ⟨main, ?_⟩
  rw [main]
  simp

/-- C2 instantiated on `mockWin`: take = 10 over exactly 20 items gives
3 requests (windows of 10, 10 and 0 items) and 20 items back. -/
theorem spec_c2_witness :
    exhaustive_fetch mockWin "W/" 3 "e" 0 10 [] =
      (.ok ⟨some [0, 1, 2, 3, 4, 5, 6, 7, 8, 9, 10, 11, 12, 13, 14, 15, 16, 17, 18, 19], none, []⟩,
        ["W/e?Skip=0&Take=10", "W/e?Skip=10&Take=10", "W/e?Skip=20&Take=10"]) ∧
    (exhaustive_fetch mockWin "W/" 3 "e" 0 10 []).2.length = 2 + 1 := by
  exact spec_c2 mockWin "W/" "e" [] 10 2 3
    [0, 1, 2, 3, 4, 5, 6, 7, 8, 9, 10, 11, 12, 13, 14, 15, 16, 17, 18, 19]
    (fun _ => none) (fun _ => []) (by decide) (by decide) (by decide) (by decide)

/-- One step of `__paginated_fetch__` when `raise_for_status` raises:
the `HTTPError` propagates after the single request. -/
theorem paginated_fetch_httpError {α : Type} (tr : Transport (Body α)) (base : String)
    (max fuel : Nat) (endpoint : String) (kwargs : List (String × String))
    (s : Nat) (b : Body α)
    (h : tr (base ++ buildUrl endpoint kwargs) = ⟨s, b⟩) (hs : 400 ≤ s ∧ s < 600) :
    paginated_fetch tr base max (fuel + 1) endpoint kwargs =
      (.error (.httpError s), [base ++ buildUrl endpoint kwargs]) := by
  simp only [paginated_fetch, h, raiseForStatus]
  rw [if_pos hs]

/-- One step of `__paginated_fetch__` on a full page whose recursive
call succeeds: extend the items and prepend the first URL. -/
theorem paginated_fetch_full_ok {α : Type} (tr : Transport (Body α)) (base : String)
    (max fuel : Nat) (endpoint : String) (kwargs : List (String × String))
    (its more : List α) (ls : List Link) (l₂ : Option (List Link))
    (fs f₂ : List (String × Nat)) (t : List String)
    (h : tr (base ++ buildUrl endpoint kwargs) = ⟨200, ⟨some its, some ls, fs⟩⟩)
    (hfull : ¬ its.length < max)
    (hrec : paginated_fetch tr base max fuel (nextHref ls) [] = (.ok ⟨some more, l₂, f₂⟩, t)) :
    paginated_fetch tr base max (fuel + 1) endpoint kwargs =
      (.ok ⟨some (its ++ more), some ls, fs⟩, (base ++ buildUrl endpoint kwargs) :: t) := by
  simp only [paginated_fetch, h, raiseForStatus_200, if_neg hfull, hrec]

/-- One step of `__paginated_fetch__` on a full page whose recursive
call fails: the error propagates, with the first URL prepended. -/
theorem paginated_fetch_full_err {α : Type} (tr : Transport (Body α)) (base : String)
    (max fuel : Nat) (endpoint : String) (kwargs : List (String × String))
    (its : List α) (ls : List Link) (fs : List (String × Nat))
    (e : Err) (t : List String)
    (h : tr (base ++ buildUrl endpoint kwargs) = ⟨200, ⟨some its, some ls, fs⟩⟩)
    (hfull : ¬ its.length < max)
    (hrec : paginated_fetch tr base max fuel (nextHref ls) [] = (.error e, t)) :
    paginated_fetch tr base max (fuel + 1) endpoint kwargs =
      (.error e, (base ++ buildUrl endpoint kwargs) :: t) := by
  simp only [paginated_fetch, h, raiseForStatus_200, if_neg hfull, hrec]

/-- C3 counterexample: a full first page (1 item, page size 1) whose
`links` contain no `page.next` entry does not stop
`__paginated_fetch__`; a second request is issued, to the href
accumulator's initial value `""` appended to the base URL. -/
theorem spec_c3_counterexample :
    (c3Tr "B/e").body.links = some [] ∧ nextHref [] = "" ∧
    (paginated_fetch c3Tr "B/" 1 2 "e" []).2 = ["B/e", "B/"] := by decide

/-- C3 (amended): when a response's links contain no `page.next` entry
and the response holds fewer than `page_size_max` items,
`__paginated_fetch__` treats it as the final page and returns without
issuing any further request; the item-count test alone decides
termination, so a full page without `page.next` would trigger a further
request to the bare base URL instead. -/
theorem spec_c3 {α : Type} (tr : Transport (Body α)) (base : String) (max fuel : Nat)
    (endpoint : String) (kwargs : List (String × String))
    (its : List α) (ls : List Link) (fs : List (String × Nat))
    (hfuel : 1 ≤ fuel)
    (h : tr (base ++ buildUrl endpoint kwargs) = ⟨200, ⟨some its, some ls, fs⟩⟩)
    (_hnolink : ∀ l ∈ ls, ¬ l.rel = "page.next")
    (hshort : its.length < max) :
    paginated_fetch tr base max fuel endpoint kwargs =
      (.ok ⟨some its, some ls, fs⟩, [base ++ buildUrl endpoint kwargs]) := by
  obtain ⟨f, rfl⟩ : ∃ f, fuel = f + 1 := ⟨fuel - 1, by omega⟩
  exact paginated_fetch_done tr base max f endpoint kwargs its ls fs h hshort

/-- C3 (amended) instantiated on `mockConst`: a short page with no
`page.next` link is returned after a single request. -/
theorem spec_c3_witness :
    paginated_fetch mockConst "B/" 1 1 "e" [] = (.ok ⟨some [], some [], []⟩, ["B/e"]) := by
  exact spec_c3 mockConst "B/" 1 1 "e" [] [] [] [] (by decide) rfl (by decide) (by decide)

/-- C5 counterexample: HTTP 304 is a non-2xx status, yet a 304 on the
second page does not fail the link-paginated fetch — the operation
returns `ok` with both pages' items, because `raise_for_status` only
raises for statuses 400–599. -/
theorem spec_c5_counterexample :
    (c5CounterTr "B/p2").status = 304 ∧ ¬ (200 ≤ 304 ∧ 304 < 300) ∧
    paginated_fetch c5CounterTr "B/" 1 2 "e" [] =
      (.ok ⟨some [0], some [⟨"page.next", "p2"⟩], []⟩, ["B/e", "B/p2"]) := by decide

/-- C5 (amended): if the transport returns a status in 400–599 (the
statuses `raise_for_status` raises on, e.g. HTTP 500) on the second
page of a link-paginated fetch, the whole operation fails with an HTTP
error carrying that status and no items are returned. -/
theorem spec_c5 {α : Type} (tr : Transport (Body α)) (base endpoint : String)
    (kwargs : List (String × String)) (max fuel s : Nat)
    (its : List α) (ls : List Link) (fs : List (String × Nat)) (b₂ : Body α)
    (hfuel : 2 ≤ fuel)
    (h0 : tr (base ++ buildUrl endpoint kwargs) = ⟨200, ⟨some its, some ls, fs⟩⟩)
    (hfull : ¬ its.length < max)
    (h1 : tr (base ++ nextHref ls) = ⟨s, b₂⟩)
    (hs : 400 ≤ s ∧ s < 600) :
    paginated_fetch tr base max fuel endpoint kwargs =
      (.error (.httpError s), [base ++ buildUrl endpoint kwargs, base ++ nextHref ls]) := by
  obtain ⟨f, rfl⟩ : ∃ f, fuel = f + 2 := ⟨fuel - 2, by omega⟩
  have s2 := paginated_fetch_httpError tr base max f (nextHref ls) [] s b₂
    (by rw [buildUrl_nil]; exact h1) hs
  rw [buildUrl_nil] at s2
  have s1 := paginated_fetch_full_err tr base max (f + 1) endpoint kwargs its ls fs
    (.httpError s) [base ++ nextHref ls] h0 hfull s2
  rw [show f + 2 = (f + 1) + 1 from rfl]
  exact s1

/-- C5 (amended) instantiated on `c5ErrTr`: HTTP 500 on the second page
fails the whole fetch with `httpError 500` and no items. -/
theorem spec_c5_witness :
    paginated_fetch c5ErrTr "B/" 1 2 "e" [] = (.error (.httpError 500), ["B/e", "B/p2"]) := by
  exact spec_c5 c5ErrTr "B/" "e" [] 1 2 500 [0] [⟨"page.next", "p2"⟩] [] ⟨none, none, []⟩
    (by decide) (by decide) (by decide) (by decide) (by decide)

/-- C6: a response consumed by `__paginated_fetch__` that lacks the
`links` field fails immediately — before the item-count test, with no
further request — with the distinguished missing-pagination-metadata
error (`KeyError` on `"links"`), for every such response body. -/
theorem spec_c6 {α : Type} (tr : Transport (Body α)) (base : String) (max fuel : Nat)
    (endpoint : String) (kwargs : List (String × String)) (b : Body α)
    (hfuel : 1 ≤ fuel)
    (h : tr (base ++ buildUrl endpoint kwargs) = ⟨200, b⟩)
    (hnolinks : b.links = none) :
    paginated_fetch tr base max fuel endpoint kwargs =
      (.error (.keyError "links"), [base ++ buildUrl endpoint kwargs]) := by
  obtain ⟨f, rfl⟩ : ∃ f, fuel = f + 1 := ⟨fuel - 1, by omega⟩
  simp only [paginated_fetch, h, raiseForStatus_200, hnolinks]

/-- C6 instantiated on `mockNoLinks`: a body without `links` raises the
missing-links error after one request. -/
theorem spec_c6_witness :
    paginated_fetch mockNoLinks "B/" 1 1 "e" [] = (.error (.keyError "links"), ["B/e"]) := by
  exact spec_c6 mockNoLinks "B/" 1 1 "e" [] ⟨some [], none, []⟩ (by decide) rfl rfl

/-- Termination of `__paginated_fetch__`: if the chain of pages reached
by following `page.next` hrefs is well-shaped and its n-th page is
short, the fetch succeeds within n+1 requests given fuel n+1. -/
theorem paginated_terminates {α : Type} (tr : Transport (Body α)) (base : String) (max : Nat) :
    ∀ (n : Nat) (endpoint : String) (kwargs : List (String × String))
      (its : Nat → List α) (lnks : Nat → List Link) (flds : Nat → List (String × Nat)),
      tr (base ++ buildUrl endpoint kwargs) = ⟨200, ⟨some (its 0), some (lnks 0), flds 0⟩⟩ →
      (∀ i, i < n → tr (base ++ nextHref (lnks i)) =
        ⟨200, ⟨some (its (i + 1)), some (lnks (i + 1)), flds (i + 1)⟩⟩) →
      (its n).length < max →
      ∀ fuel, n + 1 ≤ fuel →
      ∃ b t xs, paginated_fetch tr base max fuel endpoint kwargs = (.ok b, t) ∧
        b.items = some xs ∧ t.length ≤ n + 1 := by
  intro n
  induction n with
  | zero =>
    intro endpoint kwargs its lnks flds h0 hstep hshort fuel hfuel
    obtain ⟨f, rfl⟩ : ∃ f, fuel = f + 1 := ⟨fuel - 1, by omega⟩
    exact ⟨⟨some (its 0), some (lnks 0), flds 0⟩, [base ++ buildUrl endpoint kwargs], its 0,
      paginated_fetch_done tr base max f endpoint kwargs _ _ _ h0 hshort, rfl, by simp⟩
  | succ n ih =>
    intro endpoint kwargs its lnks flds h0 hstep hshort fuel hfuel
    obtain ⟨f, rfl⟩ : ∃ f, fuel = f + 1 := ⟨fuel - 1, by omega⟩
    by_cases hc : (its 0).length < max
    · exact ⟨⟨some (its 0), some (lnks 0), flds 0⟩, [base ++ buildUrl endpoint kwargs], its 0,
        paginated_fetch_done tr base max f endpoint kwargs _ _ _ h0 hc, rfl, by simp⟩
    · have h0' : tr (base ++ buildUrl (nextHref (lnks 0)) []) =
          ⟨200, ⟨some (its 1), some (lnks 1), flds 1⟩⟩ := by
        rw [buildUrl_nil]
        exact hstep 0 (Nat.succ_pos n)
      have hstep' : ∀ i, i < n → tr (base ++ nextHref (lnks (i + 1))) =
          ⟨200, ⟨some (its (i + 2)), some (lnks (i + 2)), flds (i + 2)⟩⟩ := by
        intro i hi
        exact hstep (i + 1) (Nat.succ_lt_succ hi)
      obtain ⟨b, t, xs, heq, hitems, hlen⟩ := ih (nextHref (lnks 0)) []
        (fun i => its (i + 1)) (fun i => lnks (i + 1)) (fun i => flds (i + 1))
        h0' hstep' hshort f (by omega)
      obtain ⟨bi, bl, bf⟩ := b
      rw [show bi = some xs from hitems] at heq
      exact ⟨⟨some (its 0 ++ xs), some (lnks 0), flds 0⟩,
        (base ++ buildUrl endpoint kwargs) :: t, its 0 ++ xs,
        paginated_fetch_full_ok tr base max f endpoint kwargs _ _ _ _ _ _ _ h0 hc heq, rfl,
        by simp only [List.length_cons]; omega⟩

/-- Termination of `__exhaustive_fetch__`: if the skip-progression of
windows is well-shaped and the n-th window is short, the fetch succeeds
within n+1 requests given fuel n+1. -/
theorem exhaustive_terminates {α : Type} (tr : Transport (Body α)) (base : String) :
    ∀ (n : Nat) (endpoint : String) (skip take : Nat) (kwargs : List (String × String))
      (its : Nat → List α) (lnks : Nat → Option (List Link)) (flds : Nat → List (String × Nat)),
      (∀ i, i ≤ n → tr (windowUrl base endpoint kwargs take (skip + i * take)) =
        ⟨200, ⟨some (its i), lnks i, flds i⟩⟩) →
      (its n).length < take →
      ∀ fuel, n + 1 ≤ fuel →
      ∃ b t xs, exhaustive_fetch tr base fuel endpoint skip take kwargs = (.ok b, t) ∧
        b.items = some xs ∧ t.length ≤ n + 1 := by
  intro n
  induction n with
  | zero =>
    intro endpoint skip take kwargs its lnks flds h hshort fuel hfuel
    obtain ⟨f, rfl⟩ : ∃ f, fuel = f + 1 := ⟨fuel - 1, by omega⟩
    have h0 := h 0 (Nat.le_refl 0)
    simp only [Nat.zero_mul, Nat.add_zero] at h0
    exact ⟨⟨some (its 0), lnks 0, flds 0⟩, [windowUrl base endpoint kwargs take skip], its 0,
      exhaustive_fetch_done tr base f endpoint skip take kwargs _ _ _ h0 hshort, rfl, by simp⟩
  | succ n ih =>
    intro endpoint skip take kwargs its lnks flds h hshort fuel hfuel
    obtain ⟨f, rfl⟩ : ∃ f, fuel = f + 1 := ⟨fuel - 1, by omega⟩
    have h0 := h 0 (Nat.zero_le _)
    simp only [Nat.zero_mul, Nat.add_zero] at h0
    by_cases hc : (its 0).length < take
    · exact ⟨⟨some (its 0), lnks 0, flds 0⟩, [windowUrl base endpoint kwargs take skip], its 0,
        exhaustive_fetch_done tr base f endpoint skip take kwargs _ _ _ h0 hc, rfl, by simp⟩
    · have harg : ∀ i : Nat, skip + (i + 1) * take = skip + take + i * take := by
        intro i
        ring
      have hshift : ∀ i, i ≤ n →
          tr (windowUrl base endpoint kwargs take (skip + take + i * take)) =
            ⟨200, ⟨some (its (i + 1)), lnks (i + 1), flds (i + 1)⟩⟩ := by
        intro i hi
        have hh := h (i + 1) (Nat.succ_le_succ hi)
        rwa [harg i] at hh
      obtain ⟨b, t, xs, heq, hitems, hlen⟩ := ih endpoint (skip + take) take kwargs
        (fun i => its (i + 1)) (fun i => lnks (i + 1)) (fun i => flds (i + 1))
        hshift hshort f (by omega)
      obtain ⟨bi, bl, bf⟩ := b
      rw [show bi = some xs from hitems] at heq
      exact ⟨⟨some (its 0 ++ xs), lnks 0, flds 0⟩,
        windowUrl base endpoint kwargs take skip :: t, its 0 ++ xs,
        exhaustive_fetch_full_ok tr base f endpoint skip take kwargs _ _ _ _ _ _ _ h0 hc heq, rfl,
        by simp only [List.length_cons]; omega⟩

/-- C4: both pagination strategies terminate after finitely many
requests for every well-formed upstream resource — one that, along the
page chain actually followed, eventually serves a page with fewer items
than the configured page size (for `__paginated_fetch__`) or than the
take parameter (for `__exhaustive_fetch__`): with fuel at least n+1 the
fetch returns a result (never the divergence marker) and issues at most
n+1 requests, where n indexes the first short page. -/
theorem spec_c4 :
    (∀ (α : Type) (tr : Transport (Body α)) (base : String) (max : Nat)
      (n : Nat) (endpoint : String) (kwargs : List (String × String))
      (its : Nat → List α) (lnks : Nat → List Link) (flds : Nat → List (String × Nat)),
      tr (base ++ buildUrl endpoint kwargs) = ⟨200, ⟨some (its 0), some (lnks 0), flds 0⟩⟩ →
      (∀ i, i < n → tr (base ++ nextHref (lnks i)) =
        ⟨200, ⟨some (its (i + 1)), some (lnks (i + 1)), flds (i + 1)⟩⟩) →
      (its n).length < max →
      ∀ fuel, n + 1 ≤ fuel →
      ∃ b t xs, paginated_fetch tr base max fuel endpoint kwargs = (.ok b, t) ∧
        b.items = some xs ∧ t.length ≤ n + 1) ∧
    (∀ (α : Type) (tr : Transport (Body α)) (base : String)
      (n : Nat) (endpoint : String) (skip take : Nat) (kwargs : List (String × String))
      (its : Nat → List α) (lnks : Nat → Option (List Link)) (flds : Nat → List (String × Nat)),
      (∀ i, i ≤ n → tr (windowUrl base endpoint kwargs take (skip + i * take)) =
        ⟨200, ⟨some (its i), lnks i, flds i⟩⟩) →
      (its n).length < take →
      ∀ fuel, n + 1 ≤ fuel →
      ∃ b t xs, exhaustive_fetch tr base fuel endpoint skip take kwargs = (.ok b, t) ∧
        b.items = some xs ∧ t.length ≤ n + 1) :=
  ⟨fun _ tr base max => paginated_terminates tr base max,
   fun _ tr base => exhaustive_terminates tr base⟩

/-- C4 instantiated on `mockConst`: a resource whose first page is
already short makes both strategies finish in one request on fuel 1. -/
theorem spec_c4_witness :
    (∃ b t xs, paginated_fetch mockConst "B/" 1 1 "e" [] = (.ok b, t) ∧
      b.items = some xs ∧ t.length ≤ 0 + 1) ∧
    (∃ b t xs, exhaustive_fetch mockConst "B/" 1 "e" 0 1 [] = (.ok b, t) ∧
      b.items = some xs ∧ t.length ≤ 0 + 1) := by
  constructor
  · exact spec_c4.1 Nat mockConst "B/" 1 0 "e" []
      (fun _ => []) (fun _ => []) (fun _ => []) rfl
      (fun i hi => absurd hi (Nat.not_lt_zero i)) (by decide) 1 (by decide)
  · exact spec_c4.2 Nat mockConst "B/" 0 "e" 0 1 []
      (fun _ => []) (fun _ => some []) (fun _ => [])
      (fun _ _ => rfl) (by decide) 1 (by decide)

/-- A dict write always wins the subsequent lookup of its key. -/
theorem dlookup_dictSet {κ ν : Type} [DecidableEq κ] (k : κ) (v : ν) (d : List (κ × ν)) :
    dlookup k (dictSet k v d) = some v := by
  induction d with
  | nil => simp [dictSet, dlookup]
  | cons p rest ih =>
    by_cases h : p.1 = k
    · simp [dictSet, h, dlookup]
    · simp [dictSet, h, dlookup, ih]

/-- C7: configuration errors are raised before any request.  A house
discriminator that is neither commons nor lords case-insensitively
fails `Divisions.__init__` with the configuration `ValueError` and an
empty request trace, and `Bills.get_bills` called without a date and
without a `Session` kwarg fails with the selector `ValueError` and an
empty request trace. -/
theorem spec_c7 :
    (∀ house : String, ¬ pyLower house = "commons" → ¬ pyLower house = "lords" →
      divisions_init house = (.error (.valueError "house must be Commons or Lords"), [])) ∧
    (∀ (tr : Transport (Body Record)) (fuel : Nat) (kwargs : List (String × Nat)),
      dlookup "Session" kwargs = none →
      get_bills tr fuel none kwargs =
        (.error (.valueError "Session or date must be provided"), [])) := by
  constructor
  · intro house h1 h2
    simp [divisions_init, h1, h2]
  · intro tr fuel kwargs hs
    simp [get_bills, get_bills_core, hs]

/-- C7 instantiated: house `"upper"` is rejected with no request, and a
`get_bills` call with neither date nor `Session` is rejected with no
request. -/
theorem spec_c7_witness :
    divisions_init "upper" = (.error (.valueError "house must be Commons or Lords"), []) ∧
    get_bills mockConstR 1 none [] =
      (.error (.valueError "Session or date must be provided"), []) :=
  ⟨spec_c7.1 "upper" (by decide) (by decide), spec_c7.2 mockConstR 1 [] (by decide)⟩

/-- C8: one-to-many enrichment over parent ids [A, B] whose child
fetches return one and two records respectively yields the flattened
child list of length 3 in parent-then-child order, the first child
tagged with parent id A and the remaining two with parent id B. -/
theorem spec_c8 (tr : Transport (Body Record)) (fuel A B : Nat) (r1 r2 r3 : Record)
    (lA lB : Option (List Link)) (fA fB : List (String × Nat))
    (hfuel : 1 ≤ fuel)
    (hA : tr (windowUrl committeesBase "CommitteeBusiness" [("CommitteeId", toString A)] 30 0) =
      ⟨200, ⟨some [r1], lA, fA⟩⟩)
    (hB : tr (windowUrl committeesBase "CommitteeBusiness" [("CommitteeId", toString B)] 30 0) =
      ⟨200, ⟨some [r2, r3], lB, fB⟩⟩) :
    get_committee_business tr fuel [A, B] =
      (.ok [dictSet "committeeId" A r1, dictSet "committeeId" B r2, dictSet "committeeId" B r3],
        [windowUrl committeesBase "CommitteeBusiness" [("CommitteeId", toString A)] 30 0,
         windowUrl committeesBase "CommitteeBusiness" [("CommitteeId", toString B)] 30 0]) ∧
    dlookup "committeeId" (dictSet "committeeId" A r1) = some A ∧
    dlookup "committeeId" (dictSet "committeeId" B r2) = some B ∧
    dlookup "committeeId" (dictSet "committeeId" B r3) = some B := by
  refine ⟨?_, dlookup_dictSet _ _ _, dlookup_dictSet _ _ _, dlookup_dictSet _ _ _⟩
  obtain ⟨f, rfl⟩ : ∃ f, fuel = f + 1 := ⟨fuel - 1, by omega⟩
  have eA := exhaustive_fetch_done tr committeesBase f "CommitteeBusiness" 0 30
    [("CommitteeId", toString A)] [r1] lA fA hA (by simp)
  have eB := exhaustive_fetch_done tr committeesBase f "CommitteeBusiness" 0 30
    [("CommitteeId", toString B)] [r2, r3] lB fB hB (by simp)
  simp [get_committee_business, exhaustive_fetch_top, eA, eB]

/-- C8 instantiated on `mockBusiness`: parents [5, 6] with one and two
(empty) child records give three tagged children in order. -/
theorem spec_c8_witness :
    get_committee_business mockBusiness 1 [5, 6] =
      (.ok [[("committeeId", 5)], [("committeeId", 6)], [("committeeId", 6)]],
        ["https://committees-api.parliament.uk/api/CommitteeBusiness?Skip=0&Take=30&CommitteeId=5",
         "https://committees-api.parliament.uk/api/CommitteeBusiness?Skip=0&Take=30&CommitteeId=6"]) ∧
    dlookup "committeeId" (dictSet "committeeId" 5 ([] : Record)) = some 5 ∧
    dlookup "committeeId" (dictSet "committeeId" 6 ([] : Record)) = some 6 ∧
    dlookup "committeeId" (dictSet "committeeId" 6 ([] : Record)) = some 6 := by
  exact spec_c8 mockBusiness 1 5 6 [] [] [] none none [] []
    (by decide) (by decide) (by decide)

/-- C9: the reference normalizer maps each record's id to the record
with the id field removed, last-write-wins on duplicates: for records
with ids [1, 2, 2] it returns a map of size 2 in which key 2 holds the
last record carrying that id, minus the id field. -/
theorem spec_c9 (tr : Transport (List Record)) (endpoint : String) (a b c : Record)
    (ida : dlookup "Id" a = some 1) (idb : dlookup "Id" b = some 2)
    (idc : dlookup "Id" c = some 2)
    (h : tr (calendarBase ++ buildUrl endpoint []) = ⟨200, [a, b, c]⟩) :
    clean_types tr endpoint =
      (.ok [(1, strip_id a), (2, strip_id c)], [calendarBase ++ buildUrl endpoint []]) ∧
    dlookup 2 [(1, strip_id a), (2, strip_id c)] = some (strip_id c) ∧
    [(1, strip_id a), (2, strip_id c)].length = 2 := by
  refine ⟨?_, by simp [dlookup], rfl⟩
  simp [clean_types, raiseForStatus, h, clean_fold, ida, idb, idc, dictSet]

/-- C9 instantiated on `mockTypes`: ids [1, 2, 2] normalize to a
two-entry map whose key 2 holds the last record minus its id. -/
theorem spec_c9_witness :
    clean_types mockTypes "types/list.json" =
      (.ok [(1, [("a", 10)]), (2, [("c", 30)])],
        ["https://whatson-api.parliament.uk/calendar/types/list.json"]) ∧
    dlookup 2 [(1, strip_id [("Id", 1), ("a", 10)]), (2, strip_id [("Id", 2), ("c", 30)])] =
      some (strip_id [("Id", 2), ("c", 30)]) ∧
    [(1, strip_id [("Id", 1), ("a", 10)]), (2, strip_id [("Id", 2), ("c", 30)])].length = 2 := by
  exact spec_c9 mockTypes "types/list.json"
    [("Id", 1), ("a", 10)] [("Id", 2), ("b", 20)] [("Id", 2), ("c", 30)]
    (by decide) (by decide) (by decide) (by decide)

/-- C10: `Committees.get_committee_members` runs the full fetch-and-tag
loop (its request trace is the loop's trace) but, lacking a `return`
statement, always returns `None` whenever it completes without an
exception, for every transport, fuel and id list. -/
theorem spec_c10 :
    (∀ (tr : Transport (Body Record)) (fuel : Nat) (ids : List Nat),
      (get_committee_members tr fuel ids).2 = (committee_members_loop tr fuel ids).2) ∧
    (∀ (tr : Transport (Body Record)) (fuel : Nat) (ids : List Nat) (v : Option (List Record)),
      (get_committee_members tr fuel ids).1 = .ok v → v = none) := by
  constructor
  · intro tr fuel ids
    unfold get_committee_members
    rcases h : committee_members_loop tr fuel ids with ⟨res, t⟩
    cases res <;> rfl
  · intro tr fuel ids v hv
    unfold get_committee_members at hv
    rcases h : committee_members_loop tr fuel ids with ⟨res, t⟩
    rw [h] at hv
    cases res with
    | error e => exact Except.noConfusion hv
    | ok l => exact (Except.ok.inj hv).symm

/-- C10 instantiated on `mockConstR`: the loop succeeds on id 7 yet the
function's result is `None`. -/
theorem spec_c10_witness :
    (get_committee_members mockConstR 1 [7]).1 = .ok none ∧
    (none : Option (List Record)) = none :=
  ⟨by decide, spec_c10.2 mockConstR 1 [7] none (by decide)⟩

end ParleyPy
